import Mathlib

/-!
Verification of the scheduling/control core of the grid autoclicker
(src/v2/autoclicker_grid_V2.py, with src/v1/autoclicker_grid.py and
src/v1/autoclicker_grid_V1.py as earlier variants of the same functions).

Real-valued clock readings (time.monotonic) are modelled as rationals.
The polling loops of wait_if_paused / sleep_interruptible are modelled on a
discrete tick clock (one tick = one polling slice), with the pause/stop
events given as Boolean functions of the tick and the loops written as
fuel-bounded recursions.
-/

namespace Autoclicker

/-- Translation of the GridConfig dataclass (autoclicker_grid_V2.py). -/
structure GridConfig where
  origin_x : Int := 854
  origin_y : Int := 400
  step_x : Int := 84
  step_y : Int := 84
  rows : Int := 5
  cols : Int := 4
  offset_dx : Int := 0
  offset_dy : Int := 0
  random_offset_px : Int := 20
deriving Repr, DecidableEq

/-- Translation of the TimingConfig dataclass (autoclicker_grid_V2.py). -/
structure TimingConfig where
  cooldown_seconds : ℚ := 8
  always_second_click : Bool := true
  click_delay : ℚ := 16/100
  between_positions_delay : ℚ := 20/100
  click_delay_jitter : ℚ := 6/100
  between_positions_jitter : ℚ := 15/100
deriving Repr, DecidableEq

/-- Translation of the CounterConfig dataclass (autoclicker_grid_V2.py). -/
structure CounterConfig where
  start_cycles_done : Int := 0
  target_cycles : Option Int := none
  pause_at_cycles : Option Int := none
  stop_after_minutes : Option ℚ := none
  pause_after_minutes : Option ℚ := none
  clicks_per_cycle : Int := 3
  start_full_grown : Bool := true
  stats_window : Int := 20
  cost_per_cycle : Int := 0
  reward_per_cycle : Int := 0
  coin_goal : Option Int := none
deriving Repr, DecidableEq

/-- Translation of the AppState dataclass (the fields the scheduler reads). -/
structure AppState where
  grid : GridConfig := {}
  timing : TimingConfig := {}
  counters : CounterConfig := {}
deriving Repr, DecidableEq

/-- Translation of should_count_cycle (autoclicker_grid_V2.py, lines 471-474):
n = max(1, int(counter_cfg.clicks_per_cycle)); ((position_click_count - 1) % n) == 0.
Python integer % with a positive divisor agrees with Int.emod.
should_consume_shovel (autoclicker_grid_V1.py, lines 313-321) is the same
function with clicks_per_cycle named harvests_per_shovel. -/
def should_count_cycle (position_click_count : Int) (counter_cfg : CounterConfig) : Bool :=
  (position_click_count - 1) % (max 1 counter_cfg.clicks_per_cycle) == 0

/-- Translation of jittered (autoclicker_grid_V2.py, lines 359-363); the random
draw random.uniform(-jitter, jitter) is passed in as the argument u. -/
def jittered (base jitter u : ℚ) : ℚ :=
  if jitter ≤ 0 then max 0 base else max 0 (base + u)

/-- A grid position, the (r, c) pair used as key in ready_at and
per_position_clicks (autoclicker_grid_V2.py run_cycles). -/
abbrev Posn : Type := Int × Int

/-- Translation of the cooldown-table update in run_cycles (line 632):
ready_at[(r, c)] = time.monotonic() + float(timing.cooldown_seconds). -/
def markVisited (ready_at : Posn → ℚ) (p : Posn) (now cooldown : ℚ) : Posn → ℚ :=
  fun q => if q = p then now + cooldown else ready_at q

/-- Translation of the readiness test in run_cycles (lines 593-595):
wait = ready_at[(r, c)] - now; the position is waited on exactly when
wait > 0, so it is ready exactly when ready_at[(r, c)] - now ≤ 0. -/
def isReady (ready_at : Posn → ℚ) (p : Posn) (now : ℚ) : Bool :=
  decide (ready_at p - now ≤ 0)

/-- The module-level runtime state read and written by maybe_pause_or_stop
(autoclicker_grid_V2.py lines 328-343): the two threading.Event flags and the
session counters.  session_pause_time is part of the state but is never read
by maybe_pause_or_stop. -/
structure Runtime where
  stop_event : Bool := false
  pause_event : Bool := false
  session_clicks : Int := 0
  session_cycles_added : Int := 0
  session_pause_time : ℚ := 0
  run_start_time : Option ℚ := none
deriving Repr, DecidableEq

/-- The shape `limit is not None and current >= limit` used by every
check in maybe_pause_or_stop. -/
def limit_reached {α : Type} [LinearOrder α] (current : α) : Option α → Bool
  | none => false
  | some l => decide (l ≤ current)

/-- Translation of maybe_pause_or_stop (autoclicker_grid_V2.py, lines 501-535).
Every Python branch ends in return, so the chain of checks is an if/else
chain; `if not pause_event.is_set(): pause_event.set()` has the same effect on
the state as unconditionally setting the flag.  elapsed_minutes is computed
from the wall clock only; session_pause_time is not consulted. -/
def maybe_pause_or_stop (counter_cfg : CounterConfig) (base_cycles_done : Int)
    (now : ℚ) (rt : Runtime) : Runtime :=
  match rt.run_start_time with
  | none => rt
  | some t0 =>
    if limit_reached (base_cycles_done + rt.session_cycles_added)
        counter_cfg.target_cycles then
      { rt with stop_event := true }
    else if limit_reached ((now - t0) / 60) counter_cfg.stop_after_minutes then
      { rt with stop_event := true }
    else if limit_reached (base_cycles_done + rt.session_cycles_added)
        counter_cfg.pause_at_cycles then
      { rt with pause_event := true }
    else if limit_reached ((now - t0) / 60) counter_cfg.pause_after_minutes then
      { rt with pause_event := true }
    else rt

/-- Translation of wait_if_paused (autoclicker_grid_V2.py, lines 373-378) on
the tick clock: starting at tick t, the loop sleeps one slice per iteration
while pause_event is set and stop_event is clear, and returns the time spent
paused.  fuel bounds the recursion (the Python loop can spin forever when
paused and never stopped); none means the fuel ran out. -/
def wait_if_paused (pause stop : Nat → Bool) : Nat → Nat → Option Nat
  | 0, _ => none
  | fuel + 1, t =>
    if pause t && !stop t then
      (wait_if_paused pause stop fuel (t + 1)).map (· + 1)
    else
      some 0

/-- Translation of the loop body of sleep_interruptible (autoclicker_grid_V2.py,
lines 381-399) on the tick clock.  State: current tick t, deadline end_t,
accumulated pause time acc.  While t < end_t: return on stop; on pause, wait it
out, pushing the deadline and the accumulator forward by the pause duration;
otherwise sleep one slice.  Returns (return tick, total pause time reported). -/
def sleep_loop (pause stop : Nat → Bool) : Nat → Nat → Nat → Nat → Option (Nat × Nat)
  | 0, _, _, _ => none
  | fuel + 1, t, end_t, acc =>
    if t < end_t then
      if stop t then some (t, acc)
      else if pause t then
        match wait_if_paused pause stop (fuel + 1) t with
        | none => none
        | some d => sleep_loop pause stop fuel (t + d) (end_t + d) (acc + d)
      else
        sleep_loop pause stop fuel (t + 1) end_t acc
    else
      some (t, acc)

/-- Translation of sleep_interruptible (autoclicker_grid_V2.py, lines 381-399):
end = now + seconds, then the polling loop. -/
def sleep_interruptible (pause stop : Nat → Bool) (fuel seconds t0 : Nat) :
    Option (Nat × Nat) :=
  sleep_loop pause stop fuel t0 (t0 + seconds) 0

/-- Number of ticks in [a, b) at which pause is set: the reference measure of
cumulative pause time for the accounting theorems. -/
def paused_ticks (pause : Nat → Bool) (a b : Nat) : Nat :=
  ((Finset.Ico a b).filter fun u => pause u = true).card

/-- Translation of the click count performed by click_position
(autoclicker_grid_V2.py, lines 441-468), with the stop_event reads at its
three check points passed in as Booleans: at entry (line 443), after click #1
(line 454), and after the inter-click delay (line 461).  Returns how many
pyautogui.click calls happen. -/
def click_position_clicks (always_second_click : Bool)
    (stop_at_entry stop_after_click1 stop_after_delay : Bool) : Nat :=
  if stop_at_entry then 0
  else if stop_after_click1 then 1
  else if always_second_click then
    if stop_after_delay then 1 else 2
  else 1

/-- Translation of one inner-loop iteration of run_cycles
(autoclicker_grid_V2.py, lines 583-613) at the granularity of its stop_event
reads: the top-of-iteration check (line 585), the check after the cooldown
wait (line 597, reached only when wait > 0, i.e. needs_cooldown_wait), then
click_position, then the unconditional increments of session_clicks and
per_position_clicks (lines 608-613).  Returns (clicks performed,
new per-position count). -/
def iter_step (always_second_click : Bool)
    (stop_at_top : Bool) (needs_cooldown_wait : Bool) (stop_after_cooldown_wait : Bool)
    (stop_at_entry stop_after_click1 stop_after_delay : Bool)
    (count : Nat) : Nat × Nat :=
  if stop_at_top then (0, count)
  else if needs_cooldown_wait && stop_after_cooldown_wait then (0, count)
  else
    (click_position_clicks always_second_click stop_at_entry stop_after_click1 stop_after_delay,
     count + 1)

/-- Translation of the synchronous rejection test of App.start
(autoclicker_grid_V2.py, lines 2120-2150): the only condition under which
start returns without launching the worker is an already-alive worker thread;
the grid/timing/counter configuration is not inspected at all. -/
def app_start_rejects (worker_thread_alive : Bool) (_state : AppState) : Bool :=
  worker_thread_alive

/-- Translation of the grid-dimension setup of run_cycles
(autoclicker_grid_V2.py, line 552): rows = max(1, int(grid.rows)). -/
def effective_rows (grid : GridConfig) : Int := max 1 grid.rows

/-- Translation of the grid-dimension setup of run_cycles
(autoclicker_grid_V2.py, line 553): cols = max(1, int(grid.cols)). -/
def effective_cols (grid : GridConfig) : Int := max 1 grid.cols

/-- Concrete counter configuration whose only configured limit is
stop_after_minutes = 1. -/
def stopAfterOnlyCfg : CounterConfig :=
  { stop_after_minutes := some 1 }

/-- Concrete runtime state: run started at clock 0 with 90 seconds of
recorded pause time. -/
def pausedRt : Runtime :=
  { session_pause_time := 90, run_start_time := some 0 }

/-- Concrete counter configuration with a target of 2 cycles. -/
def targetCfg : CounterConfig :=
  { target_cycles := some 2 }

/-- Concrete runtime state that has already recorded 2 cycles. -/
def targetRt : Runtime :=
  { session_cycles_added := 2, run_start_time := some 0 }

/-- Concrete app state with non-positive grid dimensions. -/
def bad_state : AppState :=
  { grid := { rows := 0, cols := -2 } }

/-- Concrete pause signal: paused during the first two ticks only. -/
def pause_first_two : Nat → Bool := fun u => decide (u < 2)

/-- Concrete stop signal: never requested. -/
def stop_never : Nat → Bool := fun _ => false

/-- Concrete stop signal: requested from tick 3 on. -/
def stop_from_three : Nat → Bool := fun u => decide (3 ≤ u)

/-!  Theorems.  -/

/-- C1 counterexample: with clicks_per_cycle = 1 and click count 2,
should_count_cycle returns true although 2 mod 1 = 0 ≠ 1 and 2 ≠ 1, so the
test is not characterised by count mod N = 1 (not even with count = 1 special
cased) over all N ≥ 1. -/
theorem should_count_cycle_not_mod_eq_one :
    ¬ (should_count_cycle 2 { clicks_per_cycle := 1 } = true ↔
        ((2 : Int) % 1 = 1 ∨ (2 : Int) = 1)) := by
  decide

/-- C1 (amended): for every clicks_per_cycle N ≥ 1 and click count c ≥ 1,
should_count_cycle is true exactly when (c - 1) mod N = 0; when N ≥ 2 this is
equivalent to c mod N = 1, and c = 1 is always a milestone (for N = 1 every
visit is a milestone). -/
theorem should_count_cycle_iff (cfg : CounterConfig) (c : Int)
    (_hc : 1 ≤ c) (hN : 1 ≤ cfg.clicks_per_cycle) :
    (should_count_cycle c cfg = true ↔ (c - 1) % cfg.clicks_per_cycle = 0)
    ∧ (2 ≤ cfg.clicks_per_cycle →
        (should_count_cycle c cfg = true ↔ c % cfg.clicks_per_cycle = 1))
    ∧ should_count_cycle 1 cfg = true := by
  have hmax : max 1 cfg.clicks_per_cycle = cfg.clicks_per_cycle := max_eq_right hN
  unfold should_count_cycle
  rw [hmax]
  refine ⟨by simp, ?_, by simp⟩
  intro h2
  rw [beq_iff_eq]
  have h1 : (1 : Int) % cfg.clicks_per_cycle = 1 :=
    Int.emod_eq_of_lt (by norm_num) (by omega)
  constructor
  · intro h
    have hmod : c % cfg.clicks_per_cycle = 1 % cfg.clicks_per_cycle :=
      Int.emod_eq_emod_iff_emod_sub_eq_zero.mpr h
    rw [h1] at hmod
    exact hmod
  · intro h
    refine Int.emod_eq_emod_iff_emod_sub_eq_zero.mp ?_
    rw [h1, h]

/-- C1 witness: with N = 3 and c = 4 (a milestone visit: 4 = 1 + 3). -/
theorem should_count_cycle_iff_witness :
    (should_count_cycle 4 { clicks_per_cycle := 3 } = true ↔ ((4 : Int) - 1) % 3 = 0)
    ∧ (2 ≤ (3 : Int) →
        (should_count_cycle 4 { clicks_per_cycle := 3 } = true ↔ (4 : Int) % 3 = 1))
    ∧ should_count_cycle 1 { clicks_per_cycle := 3 } = true :=
  should_count_cycle_iff { clicks_per_cycle := 3 } 4 (by norm_num) (by norm_num)

/-- C9: a clicks_per_cycle value ≤ 0 behaves exactly as the value 1 (every
visit is a milestone), and the modulo divisor max 1 clicks_per_cycle is
always at least 1, so no division/modulo-by-zero can occur. -/
theorem should_count_cycle_clamped (cfg : CounterConfig) (c : Int)
    (h : cfg.clicks_per_cycle ≤ 0) :
    should_count_cycle c cfg = should_count_cycle c { cfg with clicks_per_cycle := 1 }
    ∧ should_count_cycle c cfg = true
    ∧ 1 ≤ max 1 cfg.clicks_per_cycle := by
  have hmax : max 1 cfg.clicks_per_cycle = 1 := max_eq_left (by omega)
  unfold should_count_cycle
  rw [hmax]
  simp [Int.emod_one]

/-- C9 witness: clicks_per_cycle = 0 at click count 5. -/
theorem should_count_cycle_clamped_witness :
    should_count_cycle 5 { clicks_per_cycle := 0 }
        = should_count_cycle 5 { ({ clicks_per_cycle := 0 } : CounterConfig) with
            clicks_per_cycle := 1 }
    ∧ should_count_cycle 5 { clicks_per_cycle := 0 } = true
    ∧ 1 ≤ max 1 ({ clicks_per_cycle := 0 } : CounterConfig).clicks_per_cycle :=
  should_count_cycle_clamped { clicks_per_cycle := 0 } 5 (by norm_num)

/-- C6: after the cooldown-table update for a visit completed at time t with
cooldown d, the entry for p holds t + d, and the readiness test reports p
ready at t' exactly when t + d ≤ t' (so not ready at every t' < t + d). -/
theorem isReady_markVisited (ready_at : Posn → ℚ) (p : Posn) (t d t' : ℚ) :
    markVisited ready_at p t d p = t + d
    ∧ (isReady (markVisited ready_at p t d) p t' = true ↔ t + d ≤ t')
    ∧ (isReady (markVisited ready_at p t d) p t' = false ↔ t' < t + d) := by
  refine ⟨by simp [markVisited], ?_, ?_⟩
  · simp [isReady, markVisited, sub_nonpos]
  · simp [isReady, markVisited, sub_nonpos, not_le]

/-- C7: in a single evaluation of maybe_pause_or_stop in which a stop
condition fires (target cycles reached, or stop-after-minutes reached),
stop_event is set and pause_event is left exactly as it was: the stop
branches return before any pause logic runs. -/
theorem maybe_pause_or_stop_stop_precedence (cfg : CounterConfig) (base : Int)
    (now t0 : ℚ) (rt : Runtime) (h0 : rt.run_start_time = some t0)
    (hfire : limit_reached (base + rt.session_cycles_added) cfg.target_cycles = true
      ∨ limit_reached ((now - t0) / 60) cfg.stop_after_minutes = true) :
    (maybe_pause_or_stop cfg base now rt).stop_event = true
    ∧ (maybe_pause_or_stop cfg base now rt).pause_event = rt.pause_event := by
  unfold maybe_pause_or_stop
  rw [h0]
  by_cases hA : limit_reached (base + rt.session_cycles_added) cfg.target_cycles = true
  · simp [hA]
  · have hB : limit_reached ((now - t0) / 60) cfg.stop_after_minutes = true := by
      rcases hfire with h | h
      · exact absurd h hA
      · exact h
    simp [hA, hB]

/-- C7 witness: target = 2 cycles already reached at clock 0. -/
theorem maybe_pause_or_stop_stop_precedence_witness :
    (maybe_pause_or_stop targetCfg 0 0 targetRt).stop_event = true
    ∧ (maybe_pause_or_stop targetCfg 0 0 targetRt).pause_event
        = targetRt.pause_event :=
  maybe_pause_or_stop_stop_precedence targetCfg 0 0 0 targetRt rfl
    (Or.inl (by decide))

/-- C10: a single evaluation of maybe_pause_or_stop never clears either
control flag: stop_event and pause_event can only go from false to true,
never from true to false. -/
theorem maybe_pause_or_stop_never_clears (cfg : CounterConfig) (base : Int)
    (now : ℚ) (rt : Runtime) :
    rt.stop_event ≤ (maybe_pause_or_stop cfg base now rt).stop_event
    ∧ rt.pause_event ≤ (maybe_pause_or_stop cfg base now rt).pause_event := by
  unfold maybe_pause_or_stop
  refine ⟨?_, ?_⟩ <;> cases h : rt.run_start_time <;> repeat' split
  all_goals simp

/-- C2 counterexample: with stop_after_minutes = 1 as the only configured
limit, a run started at clock 0 that has spent 90 of its first 120 seconds
paused (30 s = 0.5 min of active time, under the 1-minute limit) is
nevertheless stopped: the policy compares wall-clock elapsed time and never
reads session_pause_time. -/
theorem stop_after_counts_paused_time :
    (maybe_pause_or_stop stopAfterOnlyCfg 0 120 pausedRt).stop_event = true
    ∧ ((120 : ℚ) - 0 - pausedRt.session_pause_time) / 60 < 1 := by
  constructor
  · simp [maybe_pause_or_stop, stopAfterOnlyCfg, pausedRt, limit_reached]
    norm_num
  · norm_num [pausedRt]

/-- C2 (amended): when stop-after-minutes is the only configured limit, the
policy requests stop exactly when the wall-clock time elapsed since run start
(paused time included) reaches the limit; the recorded pause time does not
extend the time before auto-stop. -/
theorem stop_after_wall_clock (cfg : CounterConfig) (base : Int)
    (now t0 m : ℚ) (rt : Runtime) (h0 : rt.run_start_time = some t0)
    (h1 : cfg.target_cycles = none) (h2 : cfg.stop_after_minutes = some m)
    (h3 : cfg.pause_at_cycles = none) (h4 : cfg.pause_after_minutes = none) :
    (maybe_pause_or_stop cfg base now rt).stop_event
      = (rt.stop_event || decide (m ≤ (now - t0) / 60)) := by
  unfold maybe_pause_or_stop
  rw [h0]
  by_cases hm : m ≤ (now - t0) / 60 <;>
    simp [limit_reached, h1, h2, h3, h4, hm]

/-- C2 witness: the configuration and state of the counterexample. -/
theorem stop_after_wall_clock_witness :
    (maybe_pause_or_stop stopAfterOnlyCfg 0 120 pausedRt).stop_event
      = (pausedRt.stop_event || decide ((1 : ℚ) ≤ ((120 : ℚ) - 0) / 60)) :=
  stop_after_wall_clock stopAfterOnlyCfg 0 120 0 1 pausedRt rfl rfl rfl rfl rfl

/-- C3 counterexample: when stop is requested between the top-of-iteration
check and click_position's entry check, the iteration performs zero clicks
yet still increments the per-position count from 0 to 1: the count is not
incremented exactly once per actual click, and an increment is recorded
after stopRequested became true. -/
theorem iter_step_counts_without_click :
    (iter_step true false false false true true true 0).1 = 0
    ∧ (iter_step true false false false true true true 0).2 = 0 + 1 := by
  decide

/-- C3 (amended): the per-position count is incremented by exactly 1 per
inner-loop iteration that passes the top-of-iteration stop check and the
post-cooldown-wait stop check, even when click_position performs no click
because stop was observed after those checks; when stop is observed at the
top-of-iteration check or at the post-cooldown-wait check, the iteration
performs no click and records no increment. -/
theorem iter_step_spec (a w s1 s2 s3 : Bool) (count : Nat) :
    iter_step a true w true s1 s2 s3 count = (0, count)
    ∧ iter_step a false true true s1 s2 s3 count = (0, count)
    ∧ (iter_step a false w false s1 s2 s3 count).2 = count + 1
    ∧ (iter_step a false w false s1 s2 s3 count).1
        = click_position_clicks a s1 s2 s3 := by
  cases w <;> simp [iter_step]

/-- C5 counterexample: an AppState with rows = 0 and cols = -2 is not
rejected by App.start (with no worker alive the run is launched), and
run_cycles clamps both dimensions to 1 and proceeds: the Run does begin. -/
theorem app_start_accepts_invalid :
    app_start_rejects false bad_state = false
    ∧ effective_rows bad_state.grid = 1
    ∧ effective_cols bad_state.grid = 1 := by
  refine ⟨rfl, ?_, ?_⟩ <;> decide

/-- C5 (amended): App.start performs no configuration validation: it rejects
exactly when a worker thread is already alive, independently of the
configuration; run_cycles clamps non-positive grid dimensions up to 1 and
the run proceeds on that grid, and jittered clamps every delay to be
non-negative, so negative configured durations cannot make a wait negative. -/
theorem app_start_no_validation (w : Bool) (st : AppState) (g : GridConfig)
    (b j u : ℚ) :
    app_start_rejects w st = w
    ∧ 1 ≤ effective_rows g
    ∧ 1 ≤ effective_cols g
    ∧ 0 ≤ jittered b j u := by
  refine ⟨rfl, le_max_left 1 g.rows, le_max_left 1 g.cols, ?_⟩
  unfold jittered
  split
  · exact le_max_left 0 b
  · exact le_max_left 0 (b + u)

/-!  Accounting lemmas for paused_ticks.  -/

theorem paused_ticks_eq_zero (pause : Nat → Bool) (a : Nat) :
    paused_ticks pause a a = 0 := by
  simp [paused_ticks]

theorem paused_ticks_split (pause : Nat → Bool) {a b c : Nat}
    (hab : a ≤ b) (hbc : b ≤ c) :
    paused_ticks pause a c = paused_ticks pause a b + paused_ticks pause b c := by
  unfold paused_ticks
  rw [← Finset.Ico_union_Ico_eq_Ico hab hbc, Finset.filter_union,
    Finset.card_union_of_disjoint]
  exact Finset.disjoint_filter_filter (Finset.Ico_disjoint_Ico_consecutive a b c)

theorem paused_ticks_all_true (pause : Nat → Bool) {a b : Nat}
    (h : ∀ u, a ≤ u → u < b → pause u = true) :
    paused_ticks pause a b = b - a := by
  unfold paused_ticks
  rw [Finset.filter_true_of_mem, Nat.card_Ico]
  intro u hu
  rw [Finset.mem_Ico] at hu
  exact h u hu.1 hu.2

theorem paused_ticks_head_false (pause : Nat → Bool) {a b : Nat}
    (h : pause a = false) (hab : a < b) :
    paused_ticks pause a b = paused_ticks pause (a + 1) b := by
  rw [paused_ticks_split pause (Nat.le_succ a) hab]
  have h1 : paused_ticks pause a (a + 1) = 0 := by
    unfold paused_ticks
    rw [Nat.Ico_succ_singleton, Finset.filter_singleton, if_neg (by simp [h])]
    simp
  rw [h1, Nat.zero_add]

/-!  Behaviour of the polling loops.  -/

/-- Every tick spent inside wait_if_paused satisfies the loop condition, and
the loop releases at the first tick where the condition fails. -/
theorem wait_if_paused_spec (pause stop : Nat → Bool) :
    ∀ fuel t d, wait_if_paused pause stop fuel t = some d →
      (∀ u, t ≤ u → u < t + d → (pause u && !stop u) = true)
      ∧ (pause (t + d) && !stop (t + d)) = false := by
  intro fuel
  induction fuel with
  | zero =>
    intro t d h
    simp [wait_if_paused] at h
  | succ f ih =>
    intro t d h
    rw [wait_if_paused] at h
    by_cases hc : (pause t && !stop t) = true
    · rw [if_pos hc] at h
      cases hw : wait_if_paused pause stop f (t + 1) with
      | none => rw [hw] at h; simp at h
      | some d' =>
        rw [hw] at h
        simp at h
        obtain ⟨h1, h2⟩ := ih (t + 1) d' hw
        constructor
        · intro u hu1 hu2
          rcases Nat.lt_or_ge u (t + 1) with h3 | h3
          · have hu : u = t := by omega
            rw [hu]
            exact hc
          · exact h1 u h3 (by omega)
        · have harith : t + 1 + d' = t + d := by omega
          rw [← harith]
          exact h2
    · rw [if_neg hc] at h
      simp at h
      rw [Bool.not_eq_true] at hc
      constructor
      · intro u hu1 hu2
        omega
      · have harith : t + d = t := by omega
        rw [harith]
        exact hc

/-- The return tick of sleep_loop is at or after the entry tick, and the
reported pause time is at least the accumulator. -/
theorem sleep_loop_mono (pause stop : Nat → Bool) :
    ∀ fuel t e acc tEnd p,
      sleep_loop pause stop fuel t e acc = some (tEnd, p) → t ≤ tEnd ∧ acc ≤ p := by
  intro fuel
  induction fuel with
  | zero =>
    intro t e acc tEnd p h
    simp [sleep_loop] at h
  | succ f ih =>
    intro t e acc tEnd p h
    rw [sleep_loop] at h
    by_cases h1 : t < e
    · rw [if_pos h1] at h
      by_cases h2 : stop t = true
      · rw [if_pos h2] at h
        simp at h
        omega
      · rw [if_neg h2] at h
        by_cases h3 : pause t = true
        · rw [if_pos h3] at h
          cases hw : wait_if_paused pause stop (f + 1) t with
          | none => rw [hw] at h; simp at h
          | some d =>
            rw [hw] at h
            have := ih (t + d) (e + d) (acc + d) tEnd p h
            omega
        · rw [if_neg h3] at h
          have := ih (t + 1) e acc tEnd p h
          omega
    · rw [if_neg h1] at h
      simp at h
      omega

/-- Deadline-extension invariant of sleep_loop on a stop-free run: the loop
releases exactly when the extended deadline is reached, the pause
accumulator only grows, and it grows by exactly the number of paused ticks. -/
theorem sleep_loop_no_stop (pause stop : Nat → Bool) (hstop : ∀ u, stop u = false) :
    ∀ fuel t e acc tEnd p, t ≤ e →
      sleep_loop pause stop fuel t e acc = some (tEnd, p) →
      tEnd + acc = e + p ∧ acc ≤ p ∧ p = acc + paused_ticks pause t tEnd := by
  intro fuel
  induction fuel with
  | zero =>
    intro t e acc tEnd p hte h
    simp [sleep_loop] at h
  | succ f ih =>
    intro t e acc tEnd p hte h
    rw [sleep_loop] at h
    by_cases h1 : t < e
    · rw [if_pos h1, if_neg (by simp [hstop t])] at h
      by_cases h3 : pause t = true
      · rw [if_pos h3] at h
        cases hw : wait_if_paused pause stop (f + 1) t with
        | none => rw [hw] at h; simp at h
        | some d =>
          rw [hw] at h
          obtain ⟨hs1, _hs2⟩ := wait_if_paused_spec pause stop (f + 1) t d hw
          have hmono := sleep_loop_mono pause stop f (t + d) (e + d) (acc + d) tEnd p h
          obtain ⟨ih1, ih2, ih3⟩ := ih (t + d) (e + d) (acc + d) tEnd p (by omega) h
          refine ⟨by omega, by omega, ?_⟩
          have hcount : paused_ticks pause t tEnd
              = paused_ticks pause t (t + d) + paused_ticks pause (t + d) tEnd :=
            paused_ticks_split pause (by omega) hmono.1
          have hall : paused_ticks pause t (t + d) = (t + d) - t := by
            apply paused_ticks_all_true
            intro u hu1 hu2
            have hval := hs1 u hu1 hu2
            simp only [Bool.and_eq_true] at hval
            exact hval.1
          omega
      · rw [if_neg h3] at h
        have hmono := sleep_loop_mono pause stop f (t + 1) e acc tEnd p h
        obtain ⟨ih1, ih2, ih3⟩ := ih (t + 1) e acc tEnd p (by omega) h
        refine ⟨ih1, ih2, ?_⟩
        have h3f : pause t = false := by
          rw [← Bool.not_eq_true]
          exact h3
        have hhead : paused_ticks pause t tEnd = paused_ticks pause (t + 1) tEnd :=
          paused_ticks_head_false pause h3f (by omega)
        omega
    · rw [if_neg h1] at h
      simp at h
      obtain ⟨h4, h5⟩ := h
      refine ⟨by omega, by omega, ?_⟩
      rw [← h4, paused_ticks_eq_zero]
      omega

/-- C4: an interruptible sleep of requested duration `seconds` that returns
on a run where stop is never requested returns exactly at
start + seconds + reported pause time: at least `seconds` ticks of unpaused
time elapse before it returns (time spent paused does not consume the
requested duration), and the value it reports equals the number of ticks the
call spent paused. -/
theorem sleep_interruptible_pause_transparent (pause stop : Nat → Bool)
    (fuel seconds t0 tEnd p : Nat) (hstop : ∀ u, stop u = false)
    (hres : sleep_interruptible pause stop fuel seconds t0 = some (tEnd, p)) :
    tEnd = t0 + seconds + p
    ∧ t0 + seconds ≤ tEnd
    ∧ p = paused_ticks pause t0 tEnd := by
  obtain ⟨h1, h2, h3⟩ :=
    sleep_loop_no_stop pause stop hstop fuel t0 (t0 + seconds) 0 tEnd p (by omega) hres
  exact ⟨by omega, by omega, by omega⟩

/-- C4 witness: a sleep of 5 ticks started at tick 0, paused during the
first two ticks, returns at tick 7 = 0 + 5 + 2 and reports 2 paused ticks. -/
theorem sleep_interruptible_pause_transparent_witness :
    (7 : Nat) = 0 + 5 + 2
    ∧ (0 : Nat) + 5 ≤ 7
    ∧ (2 : Nat) = paused_ticks pause_first_two 0 7 :=
  sleep_interruptible_pause_transparent pause_first_two stop_never 20 5 0 7 2
    (fun _ => rfl) (by decide)

/-- With stop requested from tick s on, wait_if_paused releases no later
than tick s (given fuel past s), and consumed at least one tick when its
loop condition held at entry. -/
theorem wait_if_paused_stop_bound (pause stop : Nat → Bool) (s : Nat)
    (hs : ∀ u, s ≤ u → stop u = true) :
    ∀ fuel t, s + 1 ≤ fuel + t → 1 ≤ fuel →
      ∃ d, wait_if_paused pause stop fuel t = some d ∧ t + d ≤ max t s := by
  intro fuel
  induction fuel with
  | zero =>
    intro t h1 h2
    exact absurd h2 (by omega)
  | succ f ih =>
    intro t h1 h2
    by_cases hc : (pause t && !stop t) = true
    · have hstop_t : stop t = false := by
        have hval := hc
        simp only [Bool.and_eq_true, Bool.not_eq_true'] at hval
        exact hval.2
      have hts : t < s := by
        by_contra hge
        push_neg at hge
        rw [hs t hge] at hstop_t
        simp at hstop_t
      obtain ⟨d', hd', hle⟩ := ih (t + 1) (by omega) (by omega)
      refine ⟨d' + 1, ?_, ?_⟩
      · rw [wait_if_paused, if_pos hc, hd']
        rfl
      · have hmax : max (t + 1) s = s := max_eq_right (by omega)
        rw [hmax] at hle
        exact le_trans (by omega) (le_max_right t s)
    · refine ⟨0, ?_, ?_⟩
      · rw [wait_if_paused, if_neg hc]
      · simp

/-- With stop requested from tick s on, sleep_loop returns (given fuel past
s) no later than the first top-of-slice check at or after s. -/
theorem sleep_loop_stop_bound (pause stop : Nat → Bool) (s : Nat)
    (hs : ∀ u, s ≤ u → stop u = true) :
    ∀ fuel t e acc, s + 1 ≤ fuel + t → 1 ≤ fuel →
      ∃ tEnd p, sleep_loop pause stop fuel t e acc = some (tEnd, p)
        ∧ tEnd ≤ max t s := by
  intro fuel
  induction fuel with
  | zero =>
    intro t e acc h1 h2
    exact absurd h2 (by omega)
  | succ f ih =>
    intro t e acc h1 h2
    by_cases h3 : t < e
    · by_cases h4 : stop t = true
      · refine ⟨t, acc, ?_, le_max_left t s⟩
        rw [sleep_loop, if_pos h3, if_pos h4]
      · have hts : t < s := by
          by_contra hge
          push_neg at hge
          exact h4 (hs t hge)
        by_cases h5 : pause t = true
        · have hc : (pause t && !stop t) = true := by
            rw [h5]
            rw [Bool.not_eq_true] at h4
            rw [h4]
            rfl
          obtain ⟨d, hd, hdle⟩ := wait_if_paused_stop_bound pause stop s hs (f + 1) t h1 h2
          have hd1 : 1 ≤ d := by
            rw [wait_if_paused, if_pos hc] at hd
            cases hw : wait_if_paused pause stop f (t + 1) with
            | none => rw [hw] at hd; simp at hd
            | some d' => rw [hw] at hd; simp at hd; omega
          have hms : max t s = s := max_eq_right (le_of_lt hts)
          rw [hms] at hdle
          obtain ⟨tEnd, p, hres, hle⟩ := ih (t + d) (e + d) (acc + d) (by omega) (by omega)
          refine ⟨tEnd, p, ?_, ?_⟩
          · rw [sleep_loop, if_pos h3, if_neg h4, if_pos h5, hd]
            exact hres
          · have hmax : max (t + d) s = s := max_eq_right hdle
            rw [hmax] at hle
            exact le_trans hle (le_max_right t s)
        · obtain ⟨tEnd, p, hres, hle⟩ := ih (t + 1) e acc (by omega) (by omega)
          refine ⟨tEnd, p, ?_, ?_⟩
          · rw [sleep_loop, if_pos h3, if_neg h4, if_neg h5]
            exact hres
          · have hmax : max (t + 1) s = s := max_eq_right (by omega)
            rw [hmax] at hle
            exact le_trans hle (le_max_right t s)
    · refine ⟨t, acc, ?_, le_max_left t s⟩
      rw [sleep_loop, if_neg h3]

/-- C8: if stop is requested from tick s on during an interruptible sleep
(with fuel past s), the sleep returns no later than the first
top-of-slice check at or after s, regardless of the remaining requested
duration: after observing stop at the top of a polling slice the wait
performs no further sleep slice. -/
theorem sleep_interruptible_stop_prompt (pause stop : Nat → Bool)
    (fuel seconds t0 s : Nat) (hs : ∀ u, s ≤ u → stop u = true)
    (hfuel : s + 1 ≤ fuel + t0) (hfuel1 : 1 ≤ fuel) :
    ∃ tEnd p, sleep_interruptible pause stop fuel seconds t0 = some (tEnd, p)
      ∧ tEnd ≤ max t0 s :=
  sleep_loop_stop_bound pause stop s hs fuel t0 (t0 + seconds) 0 hfuel hfuel1

/-- C8 witness: stop requested from tick 3 during a 100-tick sleep started
at tick 0 (paused during the first two ticks): the sleep returns by tick 3. -/
theorem sleep_interruptible_stop_prompt_witness :
    ∃ tEnd p, sleep_interruptible pause_first_two stop_from_three 10 100 0
        = some (tEnd, p) ∧ tEnd ≤ max 0 3 :=
  sleep_interruptible_stop_prompt pause_first_two stop_from_three 10 100 0 3
    (fun u hu => decide_eq_true hu) (by decide) (by decide)

end Autoclicker
